import Mathlib

/-!
Verification of the agent admission-control and hierarchy-tracking engine of the
CodexOrchestratorMCP repository (TypeScript MCP server).

The registry state is a shallow embedding of the per-task AGENT_REGISTRY.json
document exactly as the tool handlers read and write it:

* `deployHeadlessAgent` embeds the handler of `deploy_headless_agent`
  (tool.deploy_headless_agent.ts): tmux-availability check, task-existence
  check, `active_count >= max_concurrent` check, `total_spawned >= max_agents`
  check, depth computation (`parent == "orchestrator" ? 1 : 2`, overridden by a
  found parent agent to `(depth || 1) + 1`), tmux session creation, and on
  success the append of the new agent entry plus the two counter increments.
  External effects (tmux availability, registry-file existence, session
  creation success, the random agent id, and the current timestamp) are
  explicit parameters; prompt-text construction has no registry effect and is
  omitted.
* `killRealAgent` embeds `kill_real_agent` (tool.kill_real_agent.ts): find the
  agent by id, best-effort kill of the tmux session, then unconditionally set
  status "terminated" and decrement `active_count` with a floor of zero
  (truncated Nat subtraction models Math.max(0, n - 1)).
* `updateAgentProgress` embeds `update_agent_progress`
  (tool.update_agent_progress.ts): append one JSONL line to the per-agent
  progress file, then copy the caller-supplied status and progress onto the
  matching agent entry.
* `getRealTaskStatus` embeds the liveness-reconciliation loop of
  `get_real_task_status` (tool.get_real_task_status.ts): every agent with
  status "running" and a truthy tmux_session whose session no longer exists is
  set to "completed", `active_count` is decremented (floored at zero) and
  `completed_count` incremented, sequentially over the agent list.
* `initialRegistry` embeds the document written by `create_real_task`
  (tool.create_real_task.ts), and `createRealTaskGlobal` its only write to
  GLOBAL_REGISTRY.json. `deployHeadlessAgentWithGlobal` records the fact,
  visible in the source, that the deploy handler never reads or writes the
  global registry document.

JS numeric fields are modelled as Nat: every counter the handlers write is a
non-negative integer, `Number(x || 0)` is the identity on them, and
Math.max(0, n - 1) is truncated subtraction.
-/

structure Agent where
  id : String
  type : String
  parent : String
  depth : Nat
  status : String
  progress : Nat
  tmux_session : Option String
  started_at : String
  last_update : Option String
  terminated_at : Option String
  termination_reason : Option String
deriving DecidableEq

structure Registry where
  task_id : String
  task_description : String
  status : String
  agents : List Agent
  agent_hierarchy : List (String × List String)
  max_agents : Nat
  max_depth : Nat
  max_concurrent : Nat
  total_spawned : Nat
  active_count : Nat
  completed_count : Nat
deriving DecidableEq

structure GlobalRegistry where
  total_tasks : Nat
  active_tasks : Nat
  total_agents_spawned : Nat
  active_agents : Nat
  max_concurrent_agents : Nat
deriving DecidableEq

/-- The task registry document written by create_real_task: empty agent list,
hierarchy map holding only the root sentinel with an empty child list, zero
counters, and the configured limits. -/
def initialRegistry (taskId desc : String) (maxAgents maxDepth maxConcurrent : Nat) : Registry :=
  { task_id := taskId
    task_description := desc
    status := "INITIALIZED"
    agents := []
    agent_hierarchy := [("orchestrator", [])]
    max_agents := maxAgents
    max_depth := maxDepth
    max_concurrent := maxConcurrent
    total_spawned := 0
    active_count := 0
    completed_count := 0 }

/-- create_real_task updates GLOBAL_REGISTRY.json by incrementing total_tasks
and active_tasks only; active_agents is never touched by any tool. -/
def createRealTaskGlobal (g : GlobalRegistry) : GlobalRegistry :=
  { g with total_tasks := g.total_tasks + 1, active_tasks := g.active_tasks + 1 }

inductive DeployOutcome where
  | tmuxNotAvailable
  | taskNotFound
  | tooManyActive (active maxConcurrent : Nat)
  | maxAgentsReached (total maxAgents : Nat)
  | sessionFailed
  | deployed (agent_id tmux_session : String) (depth : Nat)
deriving DecidableEq

def isAdmitted : DeployOutcome → Bool
  | .deployed _ _ _ => true
  | _ => false

/-- Depth computation of deploy_headless_agent: start from 1 when the parent is
the root sentinel and 2 otherwise, then override with parentDepth + 1 when the
parent id is found among the recorded agents (the source reads the first
match; `Number(a.depth || 1)` turns a zero depth into 1). -/
def computeDepth (parent : String) (agents : List Agent) : Nat :=
  match agents.find? (fun a => a.id == parent) with
  | some a => (if a.depth = 0 then 1 else a.depth) + 1
  | none => if parent == "orchestrator" then 1 else 2

def newAgent (atype parent aid now : String) (depth : Nat) : Agent :=
  { id := aid
    type := atype
    parent := parent
    depth := depth
    status := "running"
    progress := 0
    tmux_session := some ("agent_" ++ aid)
    started_at := now
    last_update := none
    terminated_at := none
    termination_reason := none }

/-- The deploy_headless_agent handler. Checks in source order: tmux
availability, task existence, task active count against max_concurrent, task
total spawned against max_agents; then the tmux session is created, and only
when that succeeds is the agent entry appended and the two counters
incremented. The hierarchy map is not touched and no depth or spawn-rule or
global-registry check appears anywhere in the handler. -/
def deployHeadlessAgent (tmuxAvailable taskExists : Bool) (r : Registry)
    (parent atype aid now : String) (sessionOk : Bool) : Registry × DeployOutcome :=
  if !tmuxAvailable then (r, .tmuxNotAvailable)
  else if !taskExists then (r, .taskNotFound)
  else if r.max_concurrent ≤ r.active_count then (r, .tooManyActive r.active_count r.max_concurrent)
  else if r.max_agents ≤ r.total_spawned then (r, .maxAgentsReached r.total_spawned r.max_agents)
  else if !sessionOk then (r, .sessionFailed)
  else
    let depth := computeDepth parent r.agents
    ({ r with
        agents := r.agents ++ [newAgent atype parent aid now depth]
        total_spawned := r.total_spawned + 1
        active_count := r.active_count + 1 },
      .deployed aid ("agent_" ++ aid) depth)

/-- deploy_headless_agent never reads or writes GLOBAL_REGISTRY.json: the
global document is passed through unchanged. -/
def deployHeadlessAgentWithGlobal (g : GlobalRegistry) (tmuxAvailable taskExists : Bool)
    (r : Registry) (parent atype aid now : String) (sessionOk : Bool) :
    GlobalRegistry × Registry × DeployOutcome :=
  (g, deployHeadlessAgent tmuxAvailable taskExists r parent atype aid now sessionOk)

/-- Replace the first element satisfying p, as the source does by mutating the
object returned by Array.prototype.find in place. -/
def updateFirst (p : α → Bool) (f : α → α) : List α → List α
  | [] => []
  | x :: xs => if p x then f x :: xs else x :: updateFirst p f xs

inductive KillOutcome where
  | taskNotFound
  | agentNotFound
  | terminated (agent_id : String) (session_killed : Bool)
deriving DecidableEq

/-- The kill_real_agent handler. `ex` models checkTmuxSessionExists and
`killOk` the result of killTmuxSession; the registry transition (status
"terminated", active_count decrement floored at zero) happens regardless of
either external outcome. -/
def killRealAgent (taskExists : Bool) (r : Registry) (agentId reason now : String)
    (ex : String → Bool) (killOk : Bool) : Registry × KillOutcome :=
  if !taskExists then (r, .taskNotFound)
  else
    match r.agents.find? (fun a => a.id == agentId) with
    | none => (r, .agentNotFound)
    | some a =>
      let sessionKilled := match a.tmux_session with
        | some s => if ex s then killOk else false
        | none => false
      ({ r with
          agents := updateFirst (fun x => x.id == agentId)
            (fun x => { x with
              status := "terminated"
              terminated_at := some now
              termination_reason := some reason }) r.agents
          active_count := r.active_count - 1 },
        .terminated agentId sessionKilled)

structure ProgressEntry where
  timestamp : String
  agent_id : String
  status : String
  message : String
  progress : Nat
deriving DecidableEq

/-- The update_agent_progress handler, registry part plus the JSONL line it
appends (the ledger file is modelled as a list of lines; `encodeProgressLine`
below renders the exact JSON.stringify output of the entry object). The
handler copies the caller-supplied status and progress verbatim onto the first
matching agent; no counter changes and no special treatment of 100%. -/
def updateAgentProgress (taskExists : Bool) (r : Registry)
    (agentId status message : String) (progress : Nat) (now : String) :
    Registry × Option ProgressEntry :=
  if !taskExists then (r, none)
  else
    ({ r with
        agents := updateFirst (fun a => a.id == agentId)
          (fun a => { a with last_update := some now, status := status, progress := progress })
          r.agents },
      some { timestamp := now, agent_id := agentId, status := status,
             message := message, progress := progress })

/-- One reconciliation step of get_real_task_status: an agent with status
"running" and a truthy tmux_session whose session no longer exists becomes
"completed"; active_count is decremented with a floor of zero and
completed_count incremented, sequentially while iterating the agent list. -/
structure RecAcc where
  done : List Agent
  active : Nat
  completed : Nat
  changed : Bool
deriving DecidableEq

def reconcileStep (ex : String → Bool) (acc : RecAcc) (a : Agent) : RecAcc :=
  if a.status == "running" then
    match a.tmux_session with
    | some s =>
      if ex s then { acc with done := acc.done ++ [a] }
      else
        { done := acc.done ++ [{ a with status := "completed" }]
          active := acc.active - 1
          completed := acc.completed + 1
          changed := true }
    | none => { acc with done := acc.done ++ [a] }
  else { acc with done := acc.done ++ [a] }

/-- The liveness-reconciliation pass of get_real_task_status; the returned
Bool is the `changed` flag deciding whether the registry file is rewritten. -/
def getRealTaskStatus (ex : String → Bool) (r : Registry) : Registry × Bool :=
  let acc := r.agents.foldl (reconcileStep ex) ⟨[], r.active_count, r.completed_count, false⟩
  ({ r with agents := acc.done, active_count := acc.active, completed_count := acc.completed },
    acc.changed)

/-- The per-agent effect of one reconciliation pass, used to characterise the
sequential loop. -/
def reconAgent (ex : String → Bool) (a : Agent) : Agent :=
  if a.status == "running" then
    match a.tmux_session with
    | some s => if ex s then a else { a with status := "completed" }
    | none => a
  else a

def isDeadRunning (ex : String → Bool) (a : Agent) : Bool :=
  a.status == "running" &&
    match a.tmux_session with
    | some s => !(ex s)
    | none => false

def countDead (ex : String → Bool) (l : List Agent) : Nat :=
  (l.filter (isDeadRunning ex)).length

/-- The snapshot payload assembled by get_real_task_status after
reconciliation (`x || default` on the three limits turns a zero into the
hard-coded default, identity on the counters). -/
structure StatusPayload where
  task_id : String
  description : String
  status : String
  total_spawned : Nat
  active : Nat
  completed : Nat
  agents_list : List Agent
  hierarchy : List (String × List String)
  max_agents : Nat
  max_concurrent : Nat
  max_depth : Nat
deriving DecidableEq

def statusSnapshot (r : Registry) : StatusPayload :=
  { task_id := r.task_id
    description := r.task_description
    status := r.status
    total_spawned := r.total_spawned
    active := r.active_count
    completed := r.completed_count
    agents_list := r.agents
    hierarchy := r.agent_hierarchy
    max_agents := if r.max_agents = 0 then 10 else r.max_agents
    max_concurrent := if r.max_concurrent = 0 then 5 else r.max_concurrent
    max_depth := if r.max_depth = 0 then 3 else r.max_depth }

def getRealTaskStatusFull (ex : String → Bool) (r : Registry) : Registry × StatusPayload :=
  ((getRealTaskStatus ex r).1, statusSnapshot (getRealTaskStatus ex r).1)

/-- One caller-visible operation on a task registry, with all external
outcomes (tmux availability, session-creation success, session liveness)
carried as data. -/
inductive Op where
  | deploy (tmuxAvailable taskExists : Bool) (parent atype aid now : String) (sessionOk : Bool)
  | kill (taskExists : Bool) (agentId reason now : String) (ex : String → Bool) (killOk : Bool)
  | update (taskExists : Bool) (agentId status message : String) (progress : Nat) (now : String)
  | getStatus (ex : String → Bool)

def stepOp (r : Registry) : Op → Registry
  | .deploy avail texists parent atype aid now sOk =>
    (deployHeadlessAgent avail texists r parent atype aid now sOk).1
  | .kill texists agentId reason now ex killOk =>
    (killRealAgent texists r agentId reason now ex killOk).1
  | .update texists agentId status message progress now =>
    (updateAgentProgress texists r agentId status message progress now).1
  | .getStatus ex => (getRealTaskStatus ex r).1

def runOps (r : Registry) (ops : List Op) : Registry :=
  ops.foldl stepOp r

/-!
The append-only ledger. update_agent_progress and report_agent_finding append
`JSON.stringify(entry) + "\n"` to a per-agent jsonl file; the readers
(readJsonl in get_real_task_status, and util.comprehensive_status) split the
file on newlines, trim each line, skip blank lines, and JSON.parse each
remaining line inside a try/catch, skipping lines that fail to parse.

The JSON value grammar is embedded as a mutual inductive; `renderJson` mirrors
JSON.stringify (insertion-order keys, no whitespace, the standard string
escapes including the u00XX form for rare control characters), and the fueled
recursive-descent functions starting at `parseJsonV` model JSON.parse on this
grammar (numbers restricted to the non-negative integers the tools ever
write). A ledger file is modelled as its list of lines; renderJson never emits
a raw newline, so appending one entry appends exactly one line.
-/

mutual
inductive Json where
  | null : Json
  | bool : Bool → Json
  | num : Nat → Json
  | str : String → Json
  | arr : JsonArr → Json
  | obj : JsonObj → Json
inductive JsonArr where
  | nil : JsonArr
  | cons : Json → JsonArr → JsonArr
inductive JsonObj where
  | nil : JsonObj
  | cons : String → Json → JsonObj → JsonObj
end

def digitChar (d : Nat) : Char :=
  match d with
  | 0 => '0' | 1 => '1' | 2 => '2' | 3 => '3' | 4 => '4'
  | 5 => '5' | 6 => '6' | 7 => '7' | 8 => '8' | _ => '9'

def hexDigitChar (d : Nat) : Char :=
  match d with
  | 0 => '0' | 1 => '1' | 2 => '2' | 3 => '3' | 4 => '4'
  | 5 => '5' | 6 => '6' | 7 => '7' | 8 => '8' | 9 => '9'
  | 10 => 'a' | 11 => 'b' | 12 => 'c' | 13 => 'd' | 14 => 'e' | _ => 'f'

def hexVal (c : Char) : Option Nat :=
  if c = '0' then some 0 else if c = '1' then some 1 else if c = '2' then some 2
  else if c = '3' then some 3 else if c = '4' then some 4 else if c = '5' then some 5
  else if c = '6' then some 6 else if c = '7' then some 7 else if c = '8' then some 8
  else if c = '9' then some 9 else if c = 'a' then some 10 else if c = 'b' then some 11
  else if c = 'c' then some 12 else if c = 'd' then some 13 else if c = 'e' then some 14
  else if c = 'f' then some 15 else none

/-- The string escaping of JSON.stringify: quote, backslash and the five named
control characters get two-character escapes, any other control character the
six-character u00XX form, and everything else is emitted verbatim. -/
def escapeChar (c : Char) : List Char :=
  if c = '"' then ['\\', '"']
  else if c = '\\' then ['\\', '\\']
  else if c = '\n' then ['\\', 'n']
  else if c = '\r' then ['\\', 'r']
  else if c = '\t' then ['\\', 't']
  else if c = '\x08' then ['\\', 'b']
  else if c = '\x0C' then ['\\', 'f']
  else if c.toNat < 32 then
    ['\\', 'u', '0', '0', hexDigitChar (c.toNat / 16), hexDigitChar (c.toNat % 16)]
  else [c]

def escapeList (s : List Char) : List Char := (s.map escapeChar).flatten

def digitsLE (n : Nat) : List Nat :=
  n % 10 :: (if h : n < 10 then [] else digitsLE (n / 10))
termination_by n
decreasing_by exact Nat.div_lt_self (by omega) (by omega)

def renderNat (n : Nat) : List Char := (digitsLE n).reverse.map digitChar

mutual
def renderJson : Json → List Char
  | .null => 'n' :: 'u' :: 'l' :: 'l' :: []
  | .bool true => 't' :: 'r' :: 'u' :: 'e' :: []
  | .bool false => 'f' :: 'a' :: 'l' :: 's' :: 'e' :: []
  | .num n => renderNat n
  | .str s => '"' :: (escapeList s.data ++ ['"'])
  | .arr .nil => ['[', ']']
  | .arr (.cons v tl) => '[' :: (renderJson v ++ renderArrTail tl)
  | .obj .nil => ['{', '}']
  | .obj (.cons k v tl) => '{' :: (renderMember k v ++ renderObjTail tl)
def renderMember (k : String) (v : Json) : List Char :=
  '"' :: (escapeList k.data ++ ['"', ':'] ++ renderJson v)
def renderArrTail : JsonArr → List Char
  | .nil => [']']
  | .cons v tl => ',' :: (renderJson v ++ renderArrTail tl)
def renderObjTail : JsonObj → List Char
  | .nil => ['}']
  | .cons k v tl => ',' :: (renderMember k v ++ renderObjTail tl)
end

def expectChars : List Char → List Char → Option (List Char)
  | [], cs => some cs
  | p :: ps, c :: cs => if c = p then expectChars ps cs else none
  | _ :: _, [] => none

def parseNum (cs : List Char) : Option (Json × List Char) :=
  let ds := cs.takeWhile Char.isDigit
  if ds.isEmpty then none
  else some (.num (ds.foldl (fun a c => a * 10 + (c.toNat - 48)) 0), cs.dropWhile Char.isDigit)

def parseStrChars : Nat → List Char → Option (List Char × List Char)
  | 0, _ => none
  | _ + 1, [] => none
  | fuel + 1, c :: cs =>
    if c = '"' then some ([], cs)
    else if c = '\\' then
      match cs with
      | [] => none
      | e :: cs1 =>
        if e = '"' then (parseStrChars fuel cs1).map (fun p => ('"' :: p.1, p.2))
        else if e = '\\' then (parseStrChars fuel cs1).map (fun p => ('\\' :: p.1, p.2))
        else if e = '/' then (parseStrChars fuel cs1).map (fun p => ('/' :: p.1, p.2))
        else if e = 'n' then (parseStrChars fuel cs1).map (fun p => ('\n' :: p.1, p.2))
        else if e = 'r' then (parseStrChars fuel cs1).map (fun p => ('\r' :: p.1, p.2))
        else if e = 't' then (parseStrChars fuel cs1).map (fun p => ('\t' :: p.1, p.2))
        else if e = 'b' then (parseStrChars fuel cs1).map (fun p => ('\x08' :: p.1, p.2))
        else if e = 'f' then (parseStrChars fuel cs1).map (fun p => ('\x0C' :: p.1, p.2))
        else if e = 'u' then
          match cs1 with
          | h1 :: h2 :: h3 :: h4 :: cs2 =>
            match hexVal h1, hexVal h2, hexVal h3, hexVal h4 with
            | some a, some b, some c2, some d =>
              (parseStrChars fuel cs2).map
                (fun p => (Char.ofNat (((a * 16 + b) * 16 + c2) * 16 + d) :: p.1, p.2))
            | _, _, _, _ => none
          | _ => none
        else none
    else (parseStrChars fuel cs).map (fun p => (c :: p.1, p.2))

mutual
def parseJsonV : Nat → List Char → Option (Json × List Char)
  | 0, _ => none
  | _ + 1, [] => none
  | fuel + 1, c :: r =>
    if c = 'n' then (expectChars ['u', 'l', 'l'] r).map (fun r1 => (Json.null, r1))
    else if c = 't' then (expectChars ['r', 'u', 'e'] r).map (fun r1 => (Json.bool true, r1))
    else if c = 'f' then (expectChars ['a', 'l', 's', 'e'] r).map (fun r1 => (Json.bool false, r1))
    else if c = '"' then (parseStrChars fuel r).map (fun p => (Json.str (String.mk p.1), p.2))
    else if c = '[' then
      match r with
      | [] => none
      | c2 :: r2 =>
        if c2 = ']' then some (Json.arr JsonArr.nil, r2)
        else
          match parseJsonV fuel (c2 :: r2) with
          | some (v, r1) =>
            (parseArrTail fuel r1).map (fun p => (Json.arr (JsonArr.cons v p.1), p.2))
          | none => none
    else if c = '{' then
      match r with
      | [] => none
      | c2 :: r2 =>
        if c2 = '}' then some (Json.obj JsonObj.nil, r2)
        else
          match parseMember fuel (c2 :: r2) with
          | some (k, v, r1) =>
            (parseObjTail fuel r1).map (fun p => (Json.obj (JsonObj.cons k v p.1), p.2))
          | none => none
    else if c.isDigit then parseNum (c :: r)
    else none
def parseMember : Nat → List Char → Option (String × Json × List Char)
  | 0, _ => none
  | _ + 1, [] => none
  | fuel + 1, c :: r =>
    if c = '"' then
      match parseStrChars fuel r with
      | some (k, r1) =>
        match r1 with
        | ':' :: r2 => (parseJsonV fuel r2).map (fun p => (String.mk k, p.1, p.2))
        | _ => none
      | none => none
    else none
def parseArrTail : Nat → List Char → Option (JsonArr × List Char)
  | 0, _ => none
  | _ + 1, [] => none
  | fuel + 1, c :: r =>
    if c = ']' then some (JsonArr.nil, r)
    else if c = ',' then
      match parseJsonV fuel r with
      | some (v, r1) => (parseArrTail fuel r1).map (fun p => (JsonArr.cons v p.1, p.2))
      | none => none
    else none
def parseObjTail : Nat → List Char → Option (JsonObj × List Char)
  | 0, _ => none
  | _ + 1, [] => none
  | fuel + 1, c :: r =>
    if c = '}' then some (JsonObj.nil, r)
    else if c = ',' then
      match parseMember fuel r with
      | some (k, v, r1) => (parseObjTail fuel r1).map (fun p => (JsonObj.cons k v p.1, p.2))
      | none => none
    else none
end

/-!
Fuel sufficient to parse a rendered value: one unit per parser step; inner
calls receive the decremented fuel, so a bound on the maximum over the
independent sub-parses suffices.
-/
mutual
def costJ : Json → Nat
  | .null => 1
  | .bool _ => 1
  | .num _ => 1
  | .str s => 1 + (s.data.length + 1)
  | .arr .nil => 1
  | .arr (.cons v tl) => 1 + max (costJ v) (costA tl)
  | .obj .nil => 1
  | .obj (.cons k v tl) => 1 + max (costM k v) (costO tl)
def costM (k : String) (v : Json) : Nat := 1 + max (k.data.length + 1) (costJ v)
def costA : JsonArr → Nat
  | .nil => 1
  | .cons v tl => 1 + max (costJ v) (costA tl)
def costO : JsonObj → Nat
  | .nil => 1
  | .cons k v tl => 1 + max (costM k v) (costO tl)
end

def encodeLine (v : Json) : String := String.mk (renderJson v)

def parseJsonLine (s : String) : Option Json :=
  match parseJsonV (s.data.length + 1) s.data with
  | some (v, []) => some v
  | _ => none

def isWsChar (c : Char) : Bool := c = ' ' || c = '\n' || c = '\t' || c = '\r'

def trimChars (cs : List Char) : List Char :=
  ((cs.dropWhile isWsChar).reverse.dropWhile isWsChar).reverse

def trimStr (s : String) : String := String.mk (trimChars s.data)

/-- The readJsonl reader of get_real_task_status over the lines of one log
file: trim each line, skip blank lines, JSON.parse inside try/catch, skipping
lines that fail to parse. -/
def readJsonl (lines : List String) : List Json :=
  lines.filterMap fun line =>
    let l := trimStr line
    if l.data.isEmpty then none else parseJsonLine l

def progressJson (e : ProgressEntry) : Json :=
  Json.obj (JsonObj.cons "timestamp" (Json.str e.timestamp)
    (JsonObj.cons "agent_id" (Json.str e.agent_id)
    (JsonObj.cons "status" (Json.str e.status)
    (JsonObj.cons "message" (Json.str e.message)
    (JsonObj.cons "progress" (Json.num e.progress) JsonObj.nil)))))

structure FindingEntry where
  timestamp : String
  agent_id : String
  finding_type : String
  severity : String
  message : String
  data : Json

def findingJson (e : FindingEntry) : Json :=
  Json.obj (JsonObj.cons "timestamp" (Json.str e.timestamp)
    (JsonObj.cons "agent_id" (Json.str e.agent_id)
    (JsonObj.cons "finding_type" (Json.str e.finding_type)
    (JsonObj.cons "severity" (Json.str e.severity)
    (JsonObj.cons "message" (Json.str e.message)
    (JsonObj.cons "data" e.data JsonObj.nil))))))

inductive LedgerEntry where
  | progress (e : ProgressEntry)
  | finding (e : FindingEntry)

def entryJson : LedgerEntry → Json
  | .progress e => progressJson e
  | .finding e => findingJson e

/-- Appending one entry through the ledger adds exactly one line holding the
JSON.stringify rendering of the entry object. -/
def appendEntry (file : List String) (e : LedgerEntry) : List String :=
  file ++ [encodeLine (entryJson e)]

/-!
Helper lemmas about the registry operations.
-/

theorem updateFirst_find?_map (l : List Agent) (q : String) (f : Agent → Agent)
    (hf : ∀ a, (f a).id = a.id) :
    (updateFirst (fun a => a.id == q) f l).find? (fun a => a.id == q)
      = (l.find? (fun a => a.id == q)).map f := by
  induction l with
  | nil => rfl
  | cons x xs ih =>
    by_cases hx : x.id = q
    · simp [updateFirst, List.find?, hx, hf]
    · simp only [updateFirst, List.find?]
      have hxb : (x.id == q) = false := by simp [hx]
      simp [hxb, ih, hf]

theorem isAdmitted_deploy (avail texists : Bool) (r : Registry)
    (parent atype aid now : String) (sOk : Bool) :
    isAdmitted (deployHeadlessAgent avail texists r parent atype aid now sOk).2 =
      (avail && texists && decide (r.active_count < r.max_concurrent) &&
        decide (r.total_spawned < r.max_agents) && sOk) := by
  cases avail <;> cases texists <;> cases sOk <;>
    simp [deployHeadlessAgent, isAdmitted] <;>
    split_ifs <;> simp_all [isAdmitted]

theorem stepOp_agent_hierarchy (r : Registry) (op : Op) :
    (stepOp r op).agent_hierarchy = r.agent_hierarchy := by
  cases op with
  | deploy avail texists parent atype aid now sOk =>
    simp only [stepOp, deployHeadlessAgent]
    split_ifs <;> rfl
  | kill texists agentId reason now ex killOk =>
    simp only [stepOp, killRealAgent]
    split_ifs
    · rfl
    · rcases hf : r.agents.find? (fun a => a.id == agentId) with _ | a <;> simp [hf]
  | update texists agentId status message progress now =>
    simp only [stepOp, updateAgentProgress]
    split_ifs <;> rfl
  | getStatus ex => rfl

theorem reconcileStep_active_le (ex : String → Bool) (acc : RecAcc) (a : Agent) :
    (reconcileStep ex acc a).active ≤ acc.active := by
  unfold reconcileStep
  split
  · split
    · split
      · exact Nat.le_refl _
      · exact Nat.sub_le _ _
    · exact Nat.le_refl _
  · exact Nat.le_refl _

theorem reconcile_fold_active_le (ex : String → Bool) (l : List Agent) :
    ∀ acc : RecAcc, (l.foldl (reconcileStep ex) acc).active ≤ acc.active := by
  induction l with
  | nil => intro acc; exact Nat.le_refl _
  | cons a tl ih =>
    intro acc
    exact Nat.le_trans (ih (reconcileStep ex acc a)) (reconcileStep_active_le ex acc a)

theorem stepOp_preserves_inv (r : Registry) (op : Op)
    (h : r.active_count ≤ r.max_concurrent) :
    (stepOp r op).active_count ≤ (stepOp r op).max_concurrent ∧
    (stepOp r op).max_concurrent = r.max_concurrent := by
  cases op with
  | deploy avail texists parent atype aid now sOk =>
    simp only [stepOp, deployHeadlessAgent]
    split_ifs <;> first | (simp_all; omega) | simp_all
  | kill texists agentId reason now ex killOk =>
    simp only [stepOp, killRealAgent]
    split_ifs
    · exact ⟨h, rfl⟩
    · rcases hf : r.agents.find? (fun a => a.id == agentId) with _ | a
      · simp only [hf]
        exact ⟨h, trivial⟩
      · simp only [hf]
        exact ⟨Nat.le_trans (Nat.sub_le _ _) h, trivial⟩
  | update texists agentId status message progress now =>
    simp only [stepOp, updateAgentProgress]
    split_ifs
    · exact ⟨h, rfl⟩
    · exact ⟨h, rfl⟩
  | getStatus ex =>
    refine ⟨?_, rfl⟩
    simp only [stepOp, getRealTaskStatus]
    exact Nat.le_trans (reconcile_fold_active_le ex r.agents _) h

theorem runOps_inv (ops : List Op) :
    ∀ r : Registry, r.active_count ≤ r.max_concurrent →
      (runOps r ops).active_count ≤ (runOps r ops).max_concurrent ∧
      (runOps r ops).max_concurrent = r.max_concurrent := by
  induction ops with
  | nil => intro r h; exact ⟨h, rfl⟩
  | cons op ops ih =>
    intro r h
    have hs := stepOp_preserves_inv r op h
    have := ih (stepOp r op) hs.1
    exact ⟨this.1, this.2.trans hs.2⟩

theorem runOps_agent_hierarchy (ops : List Op) :
    ∀ r : Registry, (runOps r ops).agent_hierarchy = r.agent_hierarchy := by
  induction ops with
  | nil => intro r; rfl
  | cons op ops ih =>
    intro r
    exact (ih (stepOp r op)).trans (stepOp_agent_hierarchy r op)

theorem reconcileStep_spec (ex : String → Bool) (acc : RecAcc) (a : Agent) :
    reconcileStep ex acc a =
      ⟨acc.done ++ [reconAgent ex a],
        acc.active - (if isDeadRunning ex a then 1 else 0),
        acc.completed + (if isDeadRunning ex a then 1 else 0),
        acc.changed || isDeadRunning ex a⟩ := by
  rcases acc with ⟨done, act, comp, ch⟩
  cases hs : a.status == "running" <;>
    cases hsess : a.tmux_session with
  | none => simp [reconcileStep, reconAgent, isDeadRunning, hs, hsess]
  | some s =>
    cases hex : ex s <;>
      simp [reconcileStep, reconAgent, isDeadRunning, hs, hsess, hex]

theorem reconcile_foldl_spec (ex : String → Bool) (l : List Agent) :
    ∀ (done : List Agent) (act comp : Nat) (ch : Bool),
      l.foldl (reconcileStep ex) ⟨done, act, comp, ch⟩ =
        ⟨done ++ l.map (reconAgent ex), act - countDead ex l, comp + countDead ex l,
          ch || l.any (isDeadRunning ex)⟩ := by
  induction l with
  | nil => intro done act comp ch; simp [countDead]
  | cons a tl ih =>
    intro done act comp ch
    rw [List.foldl_cons, reconcileStep_spec, ih]
    cases hd : isDeadRunning ex a <;>
      simp [countDead, List.filter_cons, hd, Nat.sub_sub, Nat.add_assoc, Nat.add_comm 1]

theorem getRealTaskStatus_spec (ex : String → Bool) (r : Registry) :
    getRealTaskStatus ex r =
      ({ r with
          agents := r.agents.map (reconAgent ex)
          active_count := r.active_count - countDead ex r.agents
          completed_count := r.completed_count + countDead ex r.agents },
        r.agents.any (isDeadRunning ex)) := by
  unfold getRealTaskStatus
  rw [reconcile_foldl_spec]
  simp

theorem reconAgent_idem (ex : String → Bool) (a : Agent) :
    reconAgent ex (reconAgent ex a) = reconAgent ex a := by
  cases hs : a.status == "running" <;>
    cases hsess : a.tmux_session with
  | none => simp [reconAgent, hs, hsess]
  | some s =>
    cases hex : ex s <;> simp [reconAgent, hs, hsess, hex]

theorem isDeadRunning_reconAgent (ex : String → Bool) (a : Agent) :
    isDeadRunning ex (reconAgent ex a) = false := by
  cases hs : a.status == "running" <;>
    cases hsess : a.tmux_session with
  | none => simp [reconAgent, isDeadRunning, hs, hsess]
  | some s =>
    cases hex : ex s <;> simp [reconAgent, isDeadRunning, hs, hsess, hex]

theorem countDead_map_reconAgent (ex : String → Bool) (l : List Agent) :
    countDead ex (l.map (reconAgent ex)) = 0 := by
  induction l with
  | nil => rfl
  | cons a tl ih =>
    simp only [List.map_cons, countDead, List.filter_cons, isDeadRunning_reconAgent,
      Bool.false_eq_true, if_false] at ih ⊢
    exact ih

theorem any_map_reconAgent (ex : String → Bool) (l : List Agent) :
    (l.map (reconAgent ex)).any (isDeadRunning ex) = false := by
  induction l with
  | nil => rfl
  | cons a tl ih => simp [isDeadRunning_reconAgent, ih]

theorem map_reconAgent_idem (ex : String → Bool) (l : List Agent) :
    (l.map (reconAgent ex)).map (reconAgent ex) = l.map (reconAgent ex) := by
  simp [List.map_map, Function.comp_def, reconAgent_idem]

/-!
Claim theorems.
-/

/-- Claim C1 (code bug): the spec and the repository documentation require the
computed child depth never to exceed max_depth on an admitted deploy, but the
handler never compares the depth against max_depth. Failing input: a task
created with max_depth = 3 after three chained deploys; a deploy whose parent
sits at depth 3 is admitted and records an agent at depth 4 > 3. -/
theorem C1_depth_limit_not_enforced :
    (deployHeadlessAgent true true
        (deployHeadlessAgent true true
          (deployHeadlessAgent true true
            (deployHeadlessAgent true true (initialRegistry "TASK-1" "demo" 25 3 8)
              "orchestrator" "lead" "a1" "t1" true).1
            "a1" "worker" "a2" "t2" true).1
          "a2" "worker" "a3" "t3" true).1
        "a3" "worker" "a4" "t4" true).2 = DeployOutcome.deployed "a4" "agent_a4" 4 ∧
    (deployHeadlessAgent true true
        (deployHeadlessAgent true true
          (deployHeadlessAgent true true
            (deployHeadlessAgent true true (initialRegistry "TASK-1" "demo" 25 3 8)
              "orchestrator" "lead" "a1" "t1" true).1
            "a1" "worker" "a2" "t2" true).1
          "a2" "worker" "a3" "t3" true).1
        "a3" "worker" "a4" "t4" true).1.agents.map (fun a => (a.id, a.depth))
      = [("a1", 1), ("a2", 2), ("a3", 3), ("a4", 4)] ∧
    (initialRegistry "TASK-1" "demo" 25 3 8).max_depth = 3 := by
  refine ⟨?_, ?_, rfl⟩ <;> rfl

/-- Claim C2 counterexample: a (parentType, childType) pair that appears in no
spawn-rule table whatsoever (the handler consults none) is admitted rather
than denied, and the child agent is appended to the registry. -/
theorem C2_counterexample_pair_never_filtered :
    (deployHeadlessAgent true true
        (deployHeadlessAgent true true (initialRegistry "TASK-2" "demo" 25 5 8)
          "orchestrator" "frontend" "f1" "t1" true).1
        "f1" "database_admin" "d1" "t2" true).2
      = DeployOutcome.deployed "d1" "agent_d1" 2 ∧
    (deployHeadlessAgent true true
        (deployHeadlessAgent true true (initialRegistry "TASK-2" "demo" 25 5 8)
          "orchestrator" "frontend" "f1" "t1" true).1
        "f1" "database_admin" "d1" "t2" true).1.agents.map
          (fun a => (a.type, a.parent, a.id))
      = [("frontend", "orchestrator", "f1"), ("database_admin", "f1", "d1")] := by
  exact ⟨rfl, rfl⟩

/-- Claim C2 amended: no spawn-rule table is consulted; a deploy is admitted
exactly when tmux is available, the task exists, active_count is strictly
below max_concurrent, total_spawned is strictly below max_agents, and session
creation succeeds — independent of the parent and child types. -/
theorem C2_amended_admission_independent_of_types
    (avail texists : Bool) (r : Registry) (parent atype aid now : String) (sOk : Bool) :
    isAdmitted (deployHeadlessAgent avail texists r parent atype aid now sOk).2 = true ↔
      (avail = true ∧ texists = true ∧ r.active_count < r.max_concurrent ∧
        r.total_spawned < r.max_agents ∧ sOk = true) := by
  rw [isAdmitted_deploy]
  simp [and_assoc]

/-- Claim C3 counterexample: a deploy is admitted although the global
active-agent count equals (is not strictly below) the global concurrency
ceiling, and the global registry document is not even read or updated. -/
theorem C3_counterexample_global_ceiling_ignored :
    (GlobalRegistry.mk 1 1 8 8 8).active_agents
        = (GlobalRegistry.mk 1 1 8 8 8).max_concurrent_agents ∧
    isAdmitted (deployHeadlessAgentWithGlobal (GlobalRegistry.mk 1 1 8 8 8) true true
        (initialRegistry "TASK-3" "demo" 25 5 8) "orchestrator" "worker" "w1" "t1" true).2.2
      = true ∧
    (deployHeadlessAgentWithGlobal (GlobalRegistry.mk 1 1 8 8 8) true true
        (initialRegistry "TASK-3" "demo" 25 5 8) "orchestrator" "worker" "w1" "t1" true).1
      = GlobalRegistry.mk 1 1 8 8 8 := by
  exact ⟨rfl, rfl, rfl⟩

/-- Claim C3 amended: deploy_headless_agent performs no global-registry check
and never mutates the global document; only the task-level checks run, and for
every sequence of operations from a freshly created task the per-task
invariant active_count less than or equal to max_concurrent holds after every
operation. -/
theorem C3_amended_task_level_invariant_only :
    (∀ (g : GlobalRegistry) (avail texists : Bool) (r : Registry)
        (parent atype aid now : String) (sOk : Bool),
      (deployHeadlessAgentWithGlobal g avail texists r parent atype aid now sOk).1 = g) ∧
    (∀ (taskId desc : String) (mA mD mC : Nat) (ops : List Op),
      (runOps (initialRegistry taskId desc mA mD mC) ops).active_count ≤ mC) := by
  constructor
  · intro g avail texists r parent atype aid now sOk
    rfl
  · intro taskId desc mA mD mC ops
    have h := runOps_inv ops (initialRegistry taskId desc mA mD mC) (Nat.zero_le _)
    exact le_trans h.1 (le_of_eq h.2)

/-- Claim C4 counterexample: killing the same agent twice decrements
active_count twice (2 then 1 then 0 while a second agent is still running),
and the second kill reports a fresh successful termination, not
agent-not-found or already-terminal. -/
theorem C4_counterexample_double_kill_double_decrement :
    (killRealAgent true
        (deployHeadlessAgent true true
          (deployHeadlessAgent true true (initialRegistry "TASK-4" "demo" 25 5 8)
            "orchestrator" "worker" "a1" "t1" true).1
          "orchestrator" "worker" "a2" "t2" true).1
        "a1" "done" "t3" (fun _ => false) false).2
      = KillOutcome.terminated "a1" false ∧
    (killRealAgent true
        (deployHeadlessAgent true true
          (deployHeadlessAgent true true (initialRegistry "TASK-4" "demo" 25 5 8)
            "orchestrator" "worker" "a1" "t1" true).1
          "orchestrator" "worker" "a2" "t2" true).1
        "a1" "done" "t3" (fun _ => false) false).1.active_count = 1 ∧
    (killRealAgent true
        (killRealAgent true
          (deployHeadlessAgent true true
            (deployHeadlessAgent true true (initialRegistry "TASK-4" "demo" 25 5 8)
              "orchestrator" "worker" "a1" "t1" true).1
            "orchestrator" "worker" "a2" "t2" true).1
          "a1" "done" "t3" (fun _ => false) false).1
        "a1" "again" "t4" (fun _ => false) false).2
      = KillOutcome.terminated "a1" false ∧
    (killRealAgent true
        (killRealAgent true
          (deployHeadlessAgent true true
            (deployHeadlessAgent true true (initialRegistry "TASK-4" "demo" 25 5 8)
              "orchestrator" "worker" "a1" "t1" true).1
            "orchestrator" "worker" "a2" "t2" true).1
          "a1" "done" "t3" (fun _ => false) false).1
        "a1" "again" "t4" (fun _ => false) false).1.active_count = 0 := by
  exact ⟨rfl, rfl, rfl, rfl⟩

/-- Claim C4 amended: killing an agent whose session already exited still
returns a terminated result and decrements active_count by one (floored at
zero), and the agent entry is marked terminated; but terminated is not
absorbing for the counters — a second kill of the same id again returns a
terminated result and decrements active_count again. -/
theorem C4_amended_repeated_kill_decrements_again
    (r : Registry) (agentId reason1 reason2 now1 now2 : String)
    (ex : String → Bool) (k1ok k2ok : Bool)
    (h : ∃ a ∈ r.agents, a.id = agentId) :
    (∃ sk, (killRealAgent true r agentId reason1 now1 ex k1ok).2
        = KillOutcome.terminated agentId sk) ∧
    (killRealAgent true r agentId reason1 now1 ex k1ok).1.active_count
        = r.active_count - 1 ∧
    (((killRealAgent true r agentId reason1 now1 ex k1ok).1.agents.find?
        (fun a => a.id == agentId)).map (fun a => a.status)) = some "terminated" ∧
    (∃ sk, (killRealAgent true (killRealAgent true r agentId reason1 now1 ex k1ok).1
        agentId reason2 now2 ex k2ok).2 = KillOutcome.terminated agentId sk) ∧
    (killRealAgent true (killRealAgent true r agentId reason1 now1 ex k1ok).1
        agentId reason2 now2 ex k2ok).1.active_count = r.active_count - 2 := by
  have hsome : (r.agents.find? (fun x => x.id == agentId)).isSome := by
    rw [List.find?_isSome]
    obtain ⟨a, ha, hid⟩ := h
    exact ⟨a, ha, by simp [hid]⟩
  obtain ⟨a, ha⟩ := Option.isSome_iff_exists.mp hsome
  have hfind1 : (updateFirst (fun x => x.id == agentId)
      (fun x => { x with
        status := "terminated"
        terminated_at := some now1
        termination_reason := some reason1 }) r.agents).find? (fun x => x.id == agentId)
      = some { a with
          status := "terminated"
          terminated_at := some now1
          termination_reason := some reason1 } := by
    rw [updateFirst_find?_map r.agents agentId
      (fun x => { x with
        status := "terminated"
        terminated_at := some now1
        termination_reason := some reason1 }) (fun x => rfl), ha]
    rfl
  refine ⟨⟨(match a.tmux_session with
      | some s => if ex s then k1ok else false
      | none => false), ?_⟩, ?_, ?_, ⟨(match a.tmux_session with
      | some s => if ex s then k2ok else false
      | none => false), ?_⟩, ?_⟩
  · simp [killRealAgent, ha]
  · simp [killRealAgent, ha]
  · simp [killRealAgent, ha, hfind1]
  · simp [killRealAgent, ha, hfind1]
  · simp [killRealAgent, ha, hfind1, Nat.sub_sub]

/-- Witness for Claim C4 amended, at a registry holding two running agents. -/
theorem C4_amended_repeated_kill_decrements_again_witness :
    (∃ a ∈ (deployHeadlessAgent true true
        (deployHeadlessAgent true true (initialRegistry "TASK-4" "demo" 25 5 8)
          "orchestrator" "worker" "a1" "t1" true).1
        "orchestrator" "worker" "a2" "t2" true).1.agents, a.id = "a1") ∧
    ((∃ sk, (killRealAgent true (deployHeadlessAgent true true
        (deployHeadlessAgent true true (initialRegistry "TASK-4" "demo" 25 5 8)
          "orchestrator" "worker" "a1" "t1" true).1
        "orchestrator" "worker" "a2" "t2" true).1 "a1" "done" "t3" (fun _ => false) false).2
        = KillOutcome.terminated "a1" sk) ∧
    (killRealAgent true (deployHeadlessAgent true true
        (deployHeadlessAgent true true (initialRegistry "TASK-4" "demo" 25 5 8)
          "orchestrator" "worker" "a1" "t1" true).1
        "orchestrator" "worker" "a2" "t2" true).1 "a1" "done" "t3"
          (fun _ => false) false).1.active_count
        = (deployHeadlessAgent true true
        (deployHeadlessAgent true true (initialRegistry "TASK-4" "demo" 25 5 8)
          "orchestrator" "worker" "a1" "t1" true).1
        "orchestrator" "worker" "a2" "t2" true).1.active_count - 1 ∧
    (((killRealAgent true (deployHeadlessAgent true true
        (deployHeadlessAgent true true (initialRegistry "TASK-4" "demo" 25 5 8)
          "orchestrator" "worker" "a1" "t1" true).1
        "orchestrator" "worker" "a2" "t2" true).1 "a1" "done" "t3"
          (fun _ => false) false).1.agents.find?
        (fun a => a.id == "a1")).map (fun a => a.status)) = some "terminated" ∧
    (∃ sk, (killRealAgent true (killRealAgent true (deployHeadlessAgent true true
        (deployHeadlessAgent true true (initialRegistry "TASK-4" "demo" 25 5 8)
          "orchestrator" "worker" "a1" "t1" true).1
        "orchestrator" "worker" "a2" "t2" true).1 "a1" "done" "t3" (fun _ => false) false).1
        "a1" "again" "t4" (fun _ => false) false).2 = KillOutcome.terminated "a1" sk) ∧
    (killRealAgent true (killRealAgent true (deployHeadlessAgent true true
        (deployHeadlessAgent true true (initialRegistry "TASK-4" "demo" 25 5 8)
          "orchestrator" "worker" "a1" "t1" true).1
        "orchestrator" "worker" "a2" "t2" true).1 "a1" "done" "t3" (fun _ => false) false).1
        "a1" "again" "t4" (fun _ => false) false).1.active_count
      = (deployHeadlessAgent true true
        (deployHeadlessAgent true true (initialRegistry "TASK-4" "demo" 25 5 8)
          "orchestrator" "worker" "a1" "t1" true).1
        "orchestrator" "worker" "a2" "t2" true).1.active_count - 2) :=
  ⟨by decide,
    C4_amended_repeated_kill_decrements_again _ "a1" "done" "again" "t3" "t4"
      (fun _ => false) false false (by decide)⟩

/-- Claim C5 counterexample: on a task with max_concurrent = 2 and two running
agents, a progress update reporting status "completed" at 100 percent leaves
active_count at 2, so the previously denied third deploy is denied again with
the same task-concurrency error, contrary to the claimed decrement and
admission on retry. -/
theorem C5_counterexample_progress_100_no_decrement :
    (deployHeadlessAgent true true
        (deployHeadlessAgent true true
          (deployHeadlessAgent true true (initialRegistry "TASK-5" "demo" 25 5 2)
            "orchestrator" "worker" "a1" "t1" true).1
          "orchestrator" "worker" "a2" "t2" true).1
        "orchestrator" "worker" "a3" "t3" true).2
      = DeployOutcome.tooManyActive 2 2 ∧
    ((updateAgentProgress true
        (deployHeadlessAgent true true
          (deployHeadlessAgent true true (initialRegistry "TASK-5" "demo" 25 5 2)
            "orchestrator" "worker" "a1" "t1" true).1
          "orchestrator" "worker" "a2" "t2" true).1
        "a1" "completed" "all done" 100 "t4").1.agents.find?
          (fun a => a.id == "a1")).map (fun a => (a.status, a.progress))
      = some ("completed", 100) ∧
    (updateAgentProgress true
        (deployHeadlessAgent true true
          (deployHeadlessAgent true true (initialRegistry "TASK-5" "demo" 25 5 2)
            "orchestrator" "worker" "a1" "t1" true).1
          "orchestrator" "worker" "a2" "t2" true).1
        "a1" "completed" "all done" 100 "t4").1.active_count = 2 ∧
    (deployHeadlessAgent true true
        (updateAgentProgress true
          (deployHeadlessAgent true true
            (deployHeadlessAgent true true (initialRegistry "TASK-5" "demo" 25 5 2)
              "orchestrator" "worker" "a1" "t1" true).1
            "orchestrator" "worker" "a2" "t2" true).1
          "a1" "completed" "all done" 100 "t4").1
        "orchestrator" "worker" "a3" "t5" true).2
      = DeployOutcome.tooManyActive 2 2 := by
  exact ⟨rfl, rfl, rfl, rfl⟩

/-- Claim C5 amended: update_agent_progress stores the caller-supplied status
and progress verbatim on the matching agent and changes no counter; a 100
percent report neither forces the status to completed nor decrements
active_count, so deploy admission is unchanged by any progress update
(active_count falls only through kill_real_agent or liveness
reconciliation). -/
theorem C5_amended_update_verbatim_no_counter_change
    (texists : Bool) (r : Registry) (agentId status message : String)
    (progress : Nat) (now : String) :
    (updateAgentProgress texists r agentId status message progress now).1.active_count
        = r.active_count ∧
    (updateAgentProgress texists r agentId status message progress now).1.completed_count
        = r.completed_count ∧
    (updateAgentProgress texists r agentId status message progress now).1.total_spawned
        = r.total_spawned ∧
    (updateAgentProgress texists r agentId status message progress now).1.max_concurrent
        = r.max_concurrent ∧
    (updateAgentProgress texists r agentId status message progress now).1.max_agents
        = r.max_agents ∧
    (texists = true →
      (updateAgentProgress texists r agentId status message progress now).1.agents.find?
          (fun a => a.id == agentId)
        = (r.agents.find? (fun a => a.id == agentId)).map
            (fun a =>
              { a with last_update := some now, status := status, progress := progress })) ∧
    (∀ (avail tex : Bool) (parent atype aid now2 : String) (sOk : Bool),
      isAdmitted (deployHeadlessAgent avail tex
          (updateAgentProgress texists r agentId status message progress now).1
          parent atype aid now2 sOk).2
        = isAdmitted (deployHeadlessAgent avail tex r parent atype aid now2 sOk).2) := by
  cases texists with
  | false => simp [updateAgentProgress]
  | true =>
    refine ⟨rfl, rfl, rfl, rfl, rfl, ?_, ?_⟩
    · intro _
      exact updateFirst_find?_map r.agents agentId
        (fun a => { a with last_update := some now, status := status, progress := progress })
        (fun a => rfl)
    · intro avail tex parent atype aid now2 sOk
      rw [isAdmitted_deploy, isAdmitted_deploy]
      rfl

/-- Witness for Claim C5 amended at a concrete registry and a 100 percent
update. -/
theorem C5_amended_update_verbatim_no_counter_change_witness :
    (updateAgentProgress true
        (deployHeadlessAgent true true (initialRegistry "TASK-5b" "demo" 25 5 2)
          "orchestrator" "worker" "a1" "t1" true).1
        "a1" "working" "halfway" 100 "t2").1.active_count
        = (deployHeadlessAgent true true (initialRegistry "TASK-5b" "demo" 25 5 2)
          "orchestrator" "worker" "a1" "t1" true).1.active_count ∧
    (updateAgentProgress true
        (deployHeadlessAgent true true (initialRegistry "TASK-5b" "demo" 25 5 2)
          "orchestrator" "worker" "a1" "t1" true).1
        "a1" "working" "halfway" 100 "t2").1.completed_count
        = (deployHeadlessAgent true true (initialRegistry "TASK-5b" "demo" 25 5 2)
          "orchestrator" "worker" "a1" "t1" true).1.completed_count ∧
    (updateAgentProgress true
        (deployHeadlessAgent true true (initialRegistry "TASK-5b" "demo" 25 5 2)
          "orchestrator" "worker" "a1" "t1" true).1
        "a1" "working" "halfway" 100 "t2").1.total_spawned
        = (deployHeadlessAgent true true (initialRegistry "TASK-5b" "demo" 25 5 2)
          "orchestrator" "worker" "a1" "t1" true).1.total_spawned ∧
    (updateAgentProgress true
        (deployHeadlessAgent true true (initialRegistry "TASK-5b" "demo" 25 5 2)
          "orchestrator" "worker" "a1" "t1" true).1
        "a1" "working" "halfway" 100 "t2").1.max_concurrent
        = (deployHeadlessAgent true true (initialRegistry "TASK-5b" "demo" 25 5 2)
          "orchestrator" "worker" "a1" "t1" true).1.max_concurrent ∧
    (updateAgentProgress true
        (deployHeadlessAgent true true (initialRegistry "TASK-5b" "demo" 25 5 2)
          "orchestrator" "worker" "a1" "t1" true).1
        "a1" "working" "halfway" 100 "t2").1.max_agents
        = (deployHeadlessAgent true true (initialRegistry "TASK-5b" "demo" 25 5 2)
          "orchestrator" "worker" "a1" "t1" true).1.max_agents ∧
    (true = true →
      (updateAgentProgress true
        (deployHeadlessAgent true true (initialRegistry "TASK-5b" "demo" 25 5 2)
          "orchestrator" "worker" "a1" "t1" true).1
        "a1" "working" "halfway" 100 "t2").1.agents.find? (fun a => a.id == "a1")
        = ((deployHeadlessAgent true true (initialRegistry "TASK-5b" "demo" 25 5 2)
          "orchestrator" "worker" "a1" "t1" true).1.agents.find? (fun a => a.id == "a1")).map
            (fun a =>
              { a with last_update := some "t2", status := "working", progress := 100 })) ∧
    (∀ (avail tex : Bool) (parent atype aid now2 : String) (sOk : Bool),
      isAdmitted (deployHeadlessAgent avail tex
          (updateAgentProgress true
            (deployHeadlessAgent true true (initialRegistry "TASK-5b" "demo" 25 5 2)
              "orchestrator" "worker" "a1" "t1" true).1
            "a1" "working" "halfway" 100 "t2").1
          parent atype aid now2 sOk).2
        = isAdmitted (deployHeadlessAgent avail tex
            (deployHeadlessAgent true true (initialRegistry "TASK-5b" "demo" 25 5 2)
              "orchestrator" "worker" "a1" "t1" true).1
            parent atype aid now2 sOk).2) :=
  C5_amended_update_verbatim_no_counter_change true _ "a1" "working" "halfway" 100 "t2"

/-- Claim C6: in deploy_headless_agent, external session creation runs before
any registry write; when session creation fails (or any earlier precondition
fails) the handler returns an error and the registry is completely
unmodified — no agent entry appended and neither counter incremented. -/
theorem C6_session_failure_registry_untouched
    (avail texists : Bool) (r : Registry) (parent atype aid now : String) :
    (deployHeadlessAgent avail texists r parent atype aid now false).1 = r ∧
    isAdmitted (deployHeadlessAgent avail texists r parent atype aid now false).2 = false := by
  constructor
  · unfold deployHeadlessAgent
    split_ifs <;> first | rfl | simp_all
  · unfold deployHeadlessAgent
    split_ifs <;> first | rfl | simp_all

/-- Claim C7: get_real_task_status reconciles before answering — every agent
still marked running whose session no longer exists is set to completed, with
active_count decremented per such agent (floored at zero, as truncated
subtraction) and completed_count incremented — and the pass is idempotent: a
second call with no intervening mutation returns the identical registry and
snapshot and reports no change to persist. -/
theorem C7_reconciliation_spec_and_idempotent (ex : String → Bool) (r : Registry) :
    (getRealTaskStatus ex r).1.agents = r.agents.map (reconAgent ex) ∧
    (getRealTaskStatus ex r).1.active_count = r.active_count - countDead ex r.agents ∧
    (getRealTaskStatus ex r).1.completed_count = r.completed_count + countDead ex r.agents ∧
    getRealTaskStatusFull ex (getRealTaskStatus ex r).1 = getRealTaskStatusFull ex r ∧
    (getRealTaskStatus ex (getRealTaskStatus ex r).1).2 = false := by
  have h1 : (getRealTaskStatus ex r).1 = { r with
      agents := r.agents.map (reconAgent ex)
      active_count := r.active_count - countDead ex r.agents
      completed_count := r.completed_count + countDead ex r.agents } := by
    rw [getRealTaskStatus_spec]
  have h2 : getRealTaskStatus ex (getRealTaskStatus ex r).1
      = ((getRealTaskStatus ex r).1, false) := by
    rw [h1, getRealTaskStatus_spec]
    simp only [map_reconAgent_idem, countDead_map_reconAgent, any_map_reconAgent,
      Nat.sub_zero, Nat.add_zero]
  refine ⟨by rw [h1], by rw [h1], by rw [h1], ?_, by rw [h2]⟩
  unfold getRealTaskStatusFull
  rw [h2]

/-- Claim C8 counterexample: after one admitted deploy the new agent id is
recorded in the agent list but appears in no child list of the
parent-to-children hierarchy map, which stays at its initial value — not in
exactly one parent entry as claimed. -/
theorem C8_counterexample_hierarchy_never_updated :
    isAdmitted (deployHeadlessAgent true true (initialRegistry "TASK-8" "demo" 25 5 8)
        "orchestrator" "worker" "a1" "t1" true).2 = true ∧
    (deployHeadlessAgent true true (initialRegistry "TASK-8" "demo" 25 5 8)
        "orchestrator" "worker" "a1" "t1" true).1.agents.map (fun a => a.id) = ["a1"] ∧
    (deployHeadlessAgent true true (initialRegistry "TASK-8" "demo" 25 5 8)
        "orchestrator" "worker" "a1" "t1" true).1.agent_hierarchy
      = [("orchestrator", [])] ∧
    ((deployHeadlessAgent true true (initialRegistry "TASK-8" "demo" 25 5 8)
        "orchestrator" "worker" "a1" "t1" true).1.agent_hierarchy.filter
          (fun p => p.2.contains "a1")).length = 0 := by
  exact ⟨rfl, rfl, rfl, rfl⟩

/-- Claim C8 amended: the parent-to-children hierarchy map is written once at
task creation as the single root entry with an empty child list and is never
modified by any subsequent operation, so no agent id ever appears in any child
list; the depth recorded for a child whose parent is found in the registry is
the parent depth plus one, but the explicit hierarchy map does not reflect the
tree. -/
theorem C8_amended_hierarchy_constant
    (taskId desc : String) (mA mD mC : Nat) (ops : List Op) :
    (runOps (initialRegistry taskId desc mA mD mC) ops).agent_hierarchy
      = [("orchestrator", [])] :=
  runOps_agent_hierarchy ops (initialRegistry taskId desc mA mD mC)

/-- Claim C10 (implicit behaviour): a deploy whose parent argument is neither
the root sentinel nor any recorded agent id is not rejected for that reason:
when the two task-level checks pass and session creation succeeds, the agent
is admitted and recorded with depth exactly 2. -/
theorem C10_unknown_parent_admitted_depth_two
    (r : Registry) (parent atype aid now : String)
    (hp : parent ≠ "orchestrator")
    (hn : ∀ a ∈ r.agents, a.id ≠ parent)
    (hc : r.active_count < r.max_concurrent)
    (ht : r.total_spawned < r.max_agents) :
    (deployHeadlessAgent true true r parent atype aid now true).2
        = DeployOutcome.deployed aid ("agent_" ++ aid) 2 ∧
    (deployHeadlessAgent true true r parent atype aid now true).1.agents
        = r.agents ++ [newAgent atype parent aid now 2] := by
  have hfn : r.agents.find? (fun a => a.id == parent) = none := by
    rw [List.find?_eq_none]
    intro a haa
    simp [hn a haa]
  have hdep : computeDepth parent r.agents = 2 := by
    unfold computeDepth
    rw [hfn]
    simp [hp]
  have h1 : ¬ (r.max_concurrent ≤ r.active_count) := Nat.not_le.mpr hc
  have h2 : ¬ (r.max_agents ≤ r.total_spawned) := Nat.not_le.mpr ht
  constructor <;> simp [deployHeadlessAgent, h1, h2, hdep]

/-- Witness for Claim C10 at a registry holding one unrelated agent and the
unknown parent id "ghost". -/
theorem C10_unknown_parent_admitted_depth_two_witness :
    ("ghost" ≠ "orchestrator" ∧
      (∀ a ∈ (deployHeadlessAgent true true (initialRegistry "TASK-10" "demo" 25 5 8)
        "orchestrator" "worker" "a1" "t1" true).1.agents, a.id ≠ "ghost") ∧
      (deployHeadlessAgent true true (initialRegistry "TASK-10" "demo" 25 5 8)
        "orchestrator" "worker" "a1" "t1" true).1.active_count
        < (deployHeadlessAgent true true (initialRegistry "TASK-10" "demo" 25 5 8)
        "orchestrator" "worker" "a1" "t1" true).1.max_concurrent ∧
      (deployHeadlessAgent true true (initialRegistry "TASK-10" "demo" 25 5 8)
        "orchestrator" "worker" "a1" "t1" true).1.total_spawned
        < (deployHeadlessAgent true true (initialRegistry "TASK-10" "demo" 25 5 8)
        "orchestrator" "worker" "a1" "t1" true).1.max_agents) ∧
    ((deployHeadlessAgent true true (deployHeadlessAgent true true
        (initialRegistry "TASK-10" "demo" 25 5 8)
        "orchestrator" "worker" "a1" "t1" true).1 "ghost" "specialist" "g1" "t2" true).2
        = DeployOutcome.deployed "g1" "agent_g1" 2 ∧
      (deployHeadlessAgent true true (deployHeadlessAgent true true
        (initialRegistry "TASK-10" "demo" 25 5 8)
        "orchestrator" "worker" "a1" "t1" true).1 "ghost" "specialist" "g1" "t2" true).1.agents
        = (deployHeadlessAgent true true (initialRegistry "TASK-10" "demo" 25 5 8)
            "orchestrator" "worker" "a1" "t1" true).1.agents
          ++ [newAgent "specialist" "ghost" "g1" "t2" 2]) :=
  ⟨⟨by decide, by decide, by decide, by decide⟩,
    C10_unknown_parent_admitted_depth_two _ "ghost" "specialist" "g1" "t2"
      (by decide) (by decide) (by decide) (by decide)⟩

/-!
Ledger round-trip: auxiliary lemmas about digits, escaping and the fueled
parsers.
-/

theorem expectChars_append (p : List Char) : ∀ rest : List Char,
    expectChars p (p ++ rest) = some rest := by
  induction p with
  | nil => intro rest; rfl
  | cons c cs ih => intro rest; simp [expectChars, ih]

theorem digitChar_spec (d : Nat) (h : d < 10) :
    (digitChar d).isDigit = true ∧ (digitChar d).toNat - 48 = d ∧
    digitChar d ≠ 'n' ∧ digitChar d ≠ 't' ∧ digitChar d ≠ 'f' ∧
    digitChar d ≠ '"' ∧ digitChar d ≠ '[' ∧ digitChar d ≠ '{' := by
  interval_cases d <;> exact ⟨by decide, by decide, by decide, by decide, by decide,
    by decide, by decide, by decide⟩

theorem hexVal_hexDigitChar (d : Nat) (h : d < 16) :
    hexVal (hexDigitChar d) = some d := by
  interval_cases d <;> decide

theorem digitsLE_all_lt (n : Nat) : ∀ x ∈ digitsLE n, x < 10 := by
  induction n using Nat.strong_induction_on with
  | _ n ih =>
    intro x hx
    rw [digitsLE, List.mem_cons] at hx
    rcases hx with rfl | hx
    · omega
    · split at hx
      · simp at hx
      · exact ih (n / 10) (Nat.div_lt_self (by omega) (by omega)) x hx

theorem digitsLE_ne_nil (n : Nat) : digitsLE n ≠ [] := by
  rw [digitsLE]
  simp

theorem foldl_digitsLE (n : Nat) : ∀ acc : Nat,
    List.foldl (fun a d => a * 10 + d) acc (digitsLE n).reverse
      = acc * 10 ^ (digitsLE n).length + n := by
  induction n using Nat.strong_induction_on with
  | _ n ih =>
    intro acc
    rw [digitsLE]
    split
    · simp
      omega
    · rename_i hge
      have hlt : n / 10 < n := Nat.div_lt_self (by omega) (by omega)
      simp only [List.reverse_cons, List.foldl_append, ih (n / 10) hlt acc,
        List.length_cons, List.foldl_cons, List.foldl_nil]
      have := Nat.div_add_mod n 10
      ring_nf
      omega

theorem foldl_map_digitChar (l : List Nat) (h : ∀ x ∈ l, x < 10) : ∀ acc : Nat,
    List.foldl (fun a c => a * 10 + (c.toNat - 48)) acc (l.map digitChar)
      = List.foldl (fun a d => a * 10 + d) acc l := by
  induction l with
  | nil => intro acc; rfl
  | cons d tl ih =>
    intro acc
    have hd := (digitChar_spec d (h d (by simp))).2.1
    simp only [List.map_cons, List.foldl_cons, hd]
    exact ih (fun x hx => h x (by simp [hx])) _

theorem renderNat_all_digits (n : Nat) : ∀ c ∈ renderNat n, c.isDigit = true := by
  intro c hc
  rw [renderNat] at hc
  obtain ⟨d, hd, rfl⟩ := List.mem_map.mp hc
  exact (digitChar_spec d (digitsLE_all_lt n d (List.mem_reverse.mp hd))).1

theorem renderNat_head (n : Nat) :
    ∃ d ds, renderNat n = digitChar d :: ds ∧ d < 10 := by
  rw [renderNat]
  rcases hrev : (digitsLE n).reverse with _ | ⟨d, ds⟩
  · exact absurd (List.reverse_eq_nil_iff.mp hrev) (digitsLE_ne_nil n)
  · refine ⟨d, ds.map digitChar, by simp, ?_⟩
    have : d ∈ (digitsLE n).reverse := by simp [hrev]
    exact digitsLE_all_lt n d (List.mem_reverse.mp this)

theorem takeWhile_append_all (p : α → Bool) (l1 l2 : List α)
    (h1 : ∀ x ∈ l1, p x = true) (h2 : ∀ c, l2.head? = some c → p c = false) :
    (l1 ++ l2).takeWhile p = l1 ∧ (l1 ++ l2).dropWhile p = l2 := by
  induction l1 with
  | nil =>
    rcases l2 with _ | ⟨c, cs⟩
    · exact ⟨rfl, rfl⟩
    · have := h2 c rfl
      simp [List.takeWhile_cons, List.dropWhile_cons, this]
  | cons x xs ih =>
    have hx := h1 x (by simp)
    have := ih (fun y hy => h1 y (by simp [hy])) 
    simp [List.takeWhile_cons, List.dropWhile_cons, hx, this.1, this.2]

theorem parseNum_renderNat (n : Nat) (rest : List Char)
    (hrest : ∀ c, rest.head? = some c → c.isDigit = false) :
    parseNum (renderNat n ++ rest) = some (Json.num n, rest) := by
  obtain ⟨htake, hdrop⟩ :=
    takeWhile_append_all Char.isDigit (renderNat n) rest (renderNat_all_digits n) hrest
  have hne : renderNat n ≠ [] := by
    rw [renderNat]
    simp [digitsLE_ne_nil n]
  rw [parseNum]
  simp only [htake, hdrop, List.isEmpty_iff]
  rw [if_neg hne]
  have hfold : (renderNat n).foldl (fun a c => a * 10 + (c.toNat - 48)) 0 = n := by
    rw [renderNat, foldl_map_digitChar _ (fun x hx => digitsLE_all_lt n x (List.mem_reverse.mp hx)),
      foldl_digitsLE]
    omega
  rw [hfold]

theorem escapeChar_length_pos (c : Char) : 1 ≤ (escapeChar c).length := by
  unfold escapeChar
  split_ifs <;> simp

theorem escapeList_length (s : List Char) : s.length ≤ (escapeList s).length := by
  induction s with
  | nil => simp [escapeList]
  | cons c cs ih =>
    have := escapeChar_length_pos c
    simp only [escapeList, List.map_cons, List.flatten_cons, List.length_append,
      List.length_cons]
    have ihl : cs.length ≤ ((cs.map escapeChar).flatten).length := by
      simpa [escapeList] using ih
    omega

theorem parseStrChars_escape (s : List Char) : ∀ (fuel : Nat) (rest : List Char),
    s.length + 1 ≤ fuel →
    parseStrChars fuel (escapeList s ++ '"' :: rest) = some (s, rest) := by
  induction s with
  | nil =>
    intro fuel rest h
    match fuel, h with
    | f + 1, _ => simp [escapeList, parseStrChars]
  | cons c cs ih =>
    intro fuel rest h
    match fuel, h with
    | f + 1, h =>
      have hf : cs.length + 1 ≤ f := by
        simp only [List.length_cons] at h
        omega
      have hrec := ih f rest hf
      have hesc : escapeList (c :: cs) = escapeChar c ++ escapeList cs := by
        simp [escapeList]
      rw [hesc]
      by_cases h1 : c = '"'
      · subst h1
        simp [escapeChar, parseStrChars, hrec]
      · by_cases h2 : c = '\\'
        · subst h2
          simp [escapeChar, parseStrChars, hrec]
        · by_cases h3 : c = '\n'
          · subst h3
            simp [escapeChar, parseStrChars, hrec]
          · by_cases h4 : c = '\r'
            · subst h4
              simp [escapeChar, parseStrChars, hrec]
            · by_cases h5 : c = '\t'
              · subst h5
                simp [escapeChar, parseStrChars, hrec]
              · by_cases h6 : c = '\x08'
                · subst h6
                  simp [escapeChar, parseStrChars, hrec]
                · by_cases h7 : c = '\x0C'
                  · subst h7
                    simp [escapeChar, parseStrChars, hrec]
                  · by_cases h8 : c.toNat < 32
                    · have hesc2 : escapeChar c =
                          ['\\', 'u', '0', '0', hexDigitChar (c.toNat / 16),
                            hexDigitChar (c.toNat % 16)] := by
                        unfold escapeChar
                        rw [if_neg h1, if_neg h2, if_neg h3, if_neg h4, if_neg h5,
                          if_neg h6, if_neg h7, if_pos h8]
                      have hhi : hexVal (hexDigitChar (c.toNat / 16)) = some (c.toNat / 16) :=
                        hexVal_hexDigitChar _ (by omega)
                      have hlo : hexVal (hexDigitChar (c.toNat % 16)) = some (c.toNat % 16) :=
                        hexVal_hexDigitChar _ (by omega)
                      have hval : ((0 * 16 + 0) * 16 + c.toNat / 16) * 16 + c.toNat % 16
                          = c.toNat := by omega
                      rw [hesc2]
                      simp [parseStrChars, hhi, hlo, hrec]
                      show some (Char.ofNat
                          (((0 * 16 + 0) * 16 + c.toNat / 16) * 16 + c.toNat % 16) :: cs,
                          rest)
                        = some (c :: cs, rest)
                      rw [hval, Char.ofNat_toNat]
                    · have hesc2 : escapeChar c = [c] := by
                        unfold escapeChar
                        rw [if_neg h1, if_neg h2, if_neg h3, if_neg h4, if_neg h5,
                          if_neg h6, if_neg h7, if_neg h8]
                      rw [hesc2]
                      simp [parseStrChars, h1, h2, hrec]

theorem costJ_pos (v : Json) : 1 ≤ costJ v := by
  cases v with
  | arr xs => cases xs <;> simp [costJ]
  | obj ms => cases ms <;> simp [costJ]
  | _ => simp [costJ]

theorem costM_pos (k : String) (v : Json) : 1 ≤ costM k v := by
  simp [costM]

theorem costA_pos (xs : JsonArr) : 1 ≤ costA xs := by
  cases xs <;> simp [costA]

theorem costO_pos (ms : JsonObj) : 1 ≤ costO ms := by
  cases ms <;> simp [costO]

theorem isDigit_ne_rbracket (c : Char) (h : c.isDigit = true) : c ≠ ']' := by
  intro he
  subst he
  simp [Char.isDigit] at h

theorem renderJson_head (v : Json) :
    ∃ c cs, renderJson v = c :: cs ∧ c ≠ ']' := by
  cases v with
  | null => exact ⟨'n', ['u', 'l', 'l'], by simp [renderJson], by decide⟩
  | bool b =>
    cases b
    · exact ⟨'f', ['a', 'l', 's', 'e'], by simp [renderJson], by decide⟩
    · exact ⟨'t', ['r', 'u', 'e'], by simp [renderJson], by decide⟩
  | num n =>
    obtain ⟨d, ds, hrn, hd⟩ := renderNat_head n
    exact ⟨digitChar d, ds, by simp [renderJson, hrn],
      isDigit_ne_rbracket _ (digitChar_spec d hd).1⟩
  | str s => exact ⟨'"', escapeList s.data ++ ['"'], by simp [renderJson], by decide⟩
  | arr xs =>
    cases xs with
    | nil => exact ⟨'[', [']'], by simp [renderJson], by decide⟩
    | cons v tl =>
      exact ⟨'[', renderJson v ++ renderArrTail tl, by simp [renderJson], by decide⟩
  | obj ms =>
    cases ms with
    | nil => exact ⟨'{', ['}'], by simp [renderJson], by decide⟩
    | cons k v tl =>
      exact ⟨'{', renderMember k v ++ renderObjTail tl, by simp [renderJson], by decide⟩

theorem arrTail_head_nondigit (xs : JsonArr) (rest : List Char) :
    ∀ c, (renderArrTail xs ++ rest).head? = some c → c.isDigit = false := by
  cases xs <;> (intro c hc; simp [renderArrTail] at hc; simp [← hc])

theorem objTail_head_nondigit (ms : JsonObj) (rest : List Char) :
    ∀ c, (renderObjTail ms ++ rest).head? = some c → c.isDigit = false := by
  cases ms <;> (intro c hc; simp [renderObjTail] at hc; simp [← hc])

theorem max_cost_left {a b n : Nat} (h : 1 + max a b ≤ n + 1) : a ≤ n := by
  have hm : max a b ≤ n := by omega
  exact le_trans (Nat.le_max_left a b) hm

theorem max_cost_right {a b n : Nat} (h : 1 + max a b ≤ n + 1) : b ≤ n := by
  have hm : max a b ≤ n := by omega
  exact le_trans (Nat.le_max_right a b) hm

theorem cost_le_length (n : Nat) :
    (∀ v : Json, costJ v ≤ n → costJ v ≤ (renderJson v).length) ∧
    (∀ (k : String) (v : Json), costM k v ≤ n → costM k v ≤ (renderMember k v).length) ∧
    (∀ xs : JsonArr, costA xs ≤ n → costA xs ≤ (renderArrTail xs).length) ∧
    (∀ ms : JsonObj, costO ms ≤ n → costO ms ≤ (renderObjTail ms).length) := by
  induction n with
  | zero =>
    refine ⟨fun v h => absurd h ?_, fun k v h => absurd h ?_,
      fun xs h => absurd h ?_, fun ms h => absurd h ?_⟩
    · have := costJ_pos v; omega
    · have := costM_pos k v; omega
    · have := costA_pos xs; omega
    · have := costO_pos ms; omega
  | succ n ih =>
    obtain ⟨ihV, ihM, ihA, ihO⟩ := ih
    refine ⟨?_, ?_, ?_, ?_⟩
    · intro v hcost
      cases v with
      | null => simp [costJ, renderJson]
      | bool b => cases b <;> simp [costJ, renderJson]
      | num m =>
        have h1 : (renderNat m).length ≥ 1 := by
          rw [renderNat]
          have := digitsLE_ne_nil m
          rcases h : digitsLE m with _ | ⟨d, ds⟩
          · exact absurd h this
          · simp
        simp only [costJ, renderJson]
        omega
      | str s =>
        have := escapeList_length s.data
        simp only [costJ, renderJson, List.length_cons, List.length_append,
          List.length_nil]
        omega
      | arr xs =>
        cases xs with
        | nil => simp [costJ, renderJson]
        | cons v tl =>
          simp only [costJ] at hcost
          have hv : costJ v ≤ n := max_cost_left hcost
          have ht : costA tl ≤ n := max_cost_right hcost
          have h1 := ihV v hv
          have h2 := ihA tl ht
          simp only [costJ, renderJson, List.length_cons, List.length_append]
          have := Nat.max_le.mpr
            ⟨le_trans h1 (Nat.le_add_right _ _), le_trans h2 (Nat.le_add_left _ _)⟩
          omega
      | obj ms =>
        cases ms with
        | nil => simp [costJ, renderJson]
        | cons k v tl =>
          simp only [costJ] at hcost
          have hv : costM k v ≤ n := max_cost_left hcost
          have ht : costO tl ≤ n := max_cost_right hcost
          have h1 := ihM k v hv
          have h2 := ihO tl ht
          simp only [costJ, renderJson, List.length_cons, List.length_append]
          have := Nat.max_le.mpr
            ⟨le_trans h1 (Nat.le_add_right _ _), le_trans h2 (Nat.le_add_left _ _)⟩
          omega
    · intro k v hcost
      simp only [costM] at hcost
      have hv : costJ v ≤ n := max_cost_right hcost
      have h1 := ihV v hv
      have h2 := escapeList_length k.data
      have hmax : max (k.data.length + 1) (costJ v)
          ≤ (escapeList k.data).length + 2 + (renderJson v).length :=
        Nat.max_le.mpr ⟨by omega, by omega⟩
      simp only [costM, renderMember, List.length_cons, List.length_append,
        List.length_nil]
      omega
    · intro xs hcost
      cases xs with
      | nil => simp [costA, renderArrTail]
      | cons v tl =>
        simp only [costA] at hcost
        have hv : costJ v ≤ n := max_cost_left hcost
        have ht : costA tl ≤ n := max_cost_right hcost
        have h1 := ihV v hv
        have h2 := ihA tl ht
        simp only [costA, renderArrTail, List.length_cons, List.length_append]
        have := Nat.max_le.mpr
          ⟨le_trans h1 (Nat.le_add_right _ _), le_trans h2 (Nat.le_add_left _ _)⟩
        omega
    · intro ms hcost
      cases ms with
      | nil => simp [costO, renderObjTail]
      | cons k v tl =>
        simp only [costO] at hcost
        have hv : costM k v ≤ n := max_cost_left hcost
        have ht : costO tl ≤ n := max_cost_right hcost
        have h1 := ihM k v hv
        have h2 := ihO tl ht
        simp only [costO, renderObjTail, List.length_cons, List.length_append]
        have := Nat.max_le.mpr
          ⟨le_trans h1 (Nat.le_add_right _ _), le_trans h2 (Nat.le_add_left _ _)⟩
        omega

theorem parse_render (fuel : Nat) :
    (∀ (v : Json) (rest : List Char), costJ v ≤ fuel →
      (∀ c, rest.head? = some c → c.isDigit = false) →
      parseJsonV fuel (renderJson v ++ rest) = some (v, rest)) ∧
    (∀ (k : String) (v : Json) (rest : List Char), costM k v ≤ fuel →
      (∀ c, rest.head? = some c → c.isDigit = false) →
      parseMember fuel (renderMember k v ++ rest) = some (k, v, rest)) ∧
    (∀ (xs : JsonArr) (rest : List Char), costA xs ≤ fuel →
      parseArrTail fuel (renderArrTail xs ++ rest) = some (xs, rest)) ∧
    (∀ (ms : JsonObj) (rest : List Char), costO ms ≤ fuel →
      parseObjTail fuel (renderObjTail ms ++ rest) = some (ms, rest)) := by
  induction fuel with
  | zero =>
    refine ⟨fun v rest h _ => absurd h (by have := costJ_pos v; omega),
      fun k v rest h _ => absurd h (by have := costM_pos k v; omega),
      fun xs rest h => absurd h (by have := costA_pos xs; omega),
      fun ms rest h => absurd h (by have := costO_pos ms; omega)⟩
  | succ f ih =>
    obtain ⟨ihV, ihM, ihA, ihO⟩ := ih
    refine ⟨?_, ?_, ?_, ?_⟩
    · intro v rest hcost hrest
      cases v with
      | null => simp [renderJson, parseJsonV, expectChars]
      | bool b => cases b <;> simp [renderJson, parseJsonV, expectChars]
      | num n =>
        obtain ⟨d, ds, hrn, hd⟩ := renderNat_head n
        obtain ⟨hdig, hsub, hn1, hn2, hn3, hn4, hn5, hn6⟩ := digitChar_spec d hd
        have hrw : renderJson (Json.num n) ++ rest = digitChar d :: (ds ++ rest) := by
          simp [renderJson, hrn]
        rw [hrw]
        simp only [parseJsonV]
        rw [if_neg hn1, if_neg hn2, if_neg hn3, if_neg hn4, if_neg hn5, if_neg hn6,
          if_pos hdig]
        have hback : digitChar d :: (ds ++ rest) = renderNat n ++ rest := by
          simp [hrn]
        rw [hback]
        exact parseNum_renderNat n rest hrest
      | str s =>
        rcases s with ⟨sl⟩
        have hk : sl.length + 1 ≤ f := by
          simp only [costJ] at hcost
          omega
        have hrw : renderJson (Json.str ⟨sl⟩) ++ rest
            = '"' :: (escapeList sl ++ ('"' :: rest)) := by
          simp [renderJson]
        rw [hrw]
        simp [parseJsonV, parseStrChars_escape sl f rest hk]
      | arr xs =>
        cases xs with
        | nil => simp [renderJson, parseJsonV]
        | cons v tl =>
          simp only [costJ] at hcost
          have hv : costJ v ≤ f := max_cost_left hcost
          have ht : costA tl ≤ f := max_cost_right hcost
          obtain ⟨c0, cs0, hrv, hc0⟩ := renderJson_head v
          have hrw : renderJson (Json.arr (JsonArr.cons v tl)) ++ rest
              = '[' :: (c0 :: (cs0 ++ (renderArrTail tl ++ rest))) := by
            simp [renderJson, hrv]
          rw [hrw]
          simp only [parseJsonV]
          rw [if_neg hc0]
          have hback : c0 :: (cs0 ++ (renderArrTail tl ++ rest))
              = renderJson v ++ (renderArrTail tl ++ rest) := by simp [hrv]
          rw [hback]
          simp [ihV v _ hv (arrTail_head_nondigit tl rest), ihA tl rest ht]
      | obj ms =>
        cases ms with
        | nil => simp [renderJson, parseJsonV]
        | cons k v tl =>
          simp only [costJ] at hcost
          have hv : costM k v ≤ f := max_cost_left hcost
          have ht : costO tl ≤ f := max_cost_right hcost
          have hrw : renderJson (Json.obj (JsonObj.cons k v tl)) ++ rest
              = '{' :: ('"' :: ((escapeList k.data ++ ['"', ':'] ++ renderJson v)
                  ++ (renderObjTail tl ++ rest))) := by
            simp [renderJson, renderMember]
          rw [hrw]
          simp only [parseJsonV]
          have hback : '"' :: ((escapeList k.data ++ ['"', ':'] ++ renderJson v)
                  ++ (renderObjTail tl ++ rest))
              = renderMember k v ++ (renderObjTail tl ++ rest) := by
            simp [renderMember]
          rw [hback]
          simp [ihM k v _ hv (objTail_head_nondigit tl rest), ihO tl rest ht]
    · intro k v rest hcost hrest
      rcases k with ⟨kl⟩
      simp only [costM] at hcost
      have hk : kl.length + 1 ≤ f := max_cost_left hcost
      have hv : costJ v ≤ f := max_cost_right hcost
      have hrw : renderMember ⟨kl⟩ v ++ rest
          = '"' :: (escapeList kl ++ ('"' :: (':' :: (renderJson v ++ rest)))) := by
        simp [renderMember]
      rw [hrw]
      simp only [parseMember]
      simp [parseStrChars_escape kl f _ hk, ihV v rest hv hrest]
    · intro xs rest hcost
      cases xs with
      | nil => simp [renderArrTail, parseArrTail]
      | cons v tl =>
        simp only [costA] at hcost
        have hv : costJ v ≤ f := max_cost_left hcost
        have ht : costA tl ≤ f := max_cost_right hcost
        have hrw : renderArrTail (JsonArr.cons v tl) ++ rest
            = ',' :: (renderJson v ++ (renderArrTail tl ++ rest)) := by
          simp [renderArrTail]
        rw [hrw]
        simp only [parseArrTail]
        simp [ihV v _ hv (arrTail_head_nondigit tl rest), ihA tl rest ht]
    · intro ms rest hcost
      cases ms with
      | nil => simp [renderObjTail, parseObjTail]
      | cons k v tl =>
        simp only [costO] at hcost
        have hv : costM k v ≤ f := max_cost_left hcost
        have ht : costO tl ≤ f := max_cost_right hcost
        have hrw : renderObjTail (JsonObj.cons k v tl) ++ rest
            = ',' :: (renderMember k v ++ (renderObjTail tl ++ rest)) := by
          simp [renderObjTail]
        rw [hrw]
        simp only [parseObjTail]
        simp [ihM k v _ hv (objTail_head_nondigit tl rest), ihO tl rest ht]

theorem parseJsonLine_encodeLine (v : Json) :
    parseJsonLine (encodeLine v) = some v := by
  have hcost : costJ v ≤ (renderJson v).length + 1 :=
    le_trans ((cost_le_length (costJ v)).1 v le_rfl) (Nat.le_succ _)
  have h := (parse_render ((renderJson v).length + 1)).1 v [] hcost
    (by intro c hc; simp at hc)
  rw [List.append_nil] at h
  unfold parseJsonLine
  show (match parseJsonV ((renderJson v).length + 1) (renderJson v) with
    | some (w, []) => some w
    | _ => none) = some v
  rw [h]

theorem renderObjTail_getLast_aux (n : Nat) : ∀ ms : JsonObj, costO ms ≤ n →
    (renderObjTail ms).getLast? = some '}' := by
  induction n with
  | zero =>
    intro ms h
    exact absurd h (by have := costO_pos ms; omega)
  | succ n ih =>
    intro ms h
    cases ms with
    | nil => simp [renderObjTail]
    | cons k v tl =>
      simp only [costO] at h
      have ht : costO tl ≤ n := max_cost_right h
      have heq : renderObjTail (JsonObj.cons k v tl)
          = (',' :: renderMember k v) ++ renderObjTail tl := by
        simp [renderObjTail]
      rw [heq, List.getLast?_append, ih tl ht]
      rfl

theorem renderObjTail_getLast (ms : JsonObj) :
    (renderObjTail ms).getLast? = some '}' :=
  renderObjTail_getLast_aux (costO ms) ms le_rfl

theorem trimChars_eq_self (cs : List Char)
    (h1 : ∀ c, cs.head? = some c → isWsChar c = false)
    (h2 : ∀ c, cs.getLast? = some c → isWsChar c = false) :
    trimChars cs = cs := by
  have hd : cs.dropWhile isWsChar = cs := by
    rcases cs with _ | ⟨c, tl⟩
    · rfl
    · rw [List.dropWhile_cons]
      simp [h1 c rfl]
  rw [trimChars, hd]
  have hrev : cs.reverse.dropWhile isWsChar = cs.reverse := by
    rcases hr : cs.reverse with _ | ⟨c, tl⟩
    · rfl
    · have hlast : cs.getLast? = some c := by
        rw [← List.head?_reverse, hr]
        rfl
      rw [List.dropWhile_cons]
      simp [h2 c hlast]
  rw [hrev, List.reverse_reverse]

theorem trimStr_encodeLine_obj (ms : JsonObj) :
    trimStr (encodeLine (Json.obj ms)) = encodeLine (Json.obj ms) := by
  have hrw : (encodeLine (Json.obj ms)).data = renderJson (Json.obj ms) := rfl
  have htrim : trimChars (renderJson (Json.obj ms)) = renderJson (Json.obj ms) := by
    cases ms with
    | nil =>
      have h0 : renderJson (Json.obj JsonObj.nil) = ['{', '}'] := by simp [renderJson]
      rw [h0]
      rfl
    | cons k v tl =>
      have h0 : renderJson (Json.obj (JsonObj.cons k v tl))
          = ('{' :: renderMember k v) ++ renderObjTail tl := by
        simp [renderJson]
      apply trimChars_eq_self
      · intro c hc
        rw [h0] at hc
        simp only [List.cons_append, List.head?_cons, Option.some.injEq] at hc
        rw [← hc]
        decide
      · intro c hc
        rw [h0, List.getLast?_append, renderObjTail_getLast] at hc
        simp only [Option.or_some, Option.some.injEq] at hc
        rw [← hc]
        decide
  unfold trimStr
  rw [hrw, htrim]
  rfl

theorem encodeLine_obj_ne_empty (ms : JsonObj) :
    (encodeLine (Json.obj ms)).data.isEmpty = false := by
  have hrw : (encodeLine (Json.obj ms)).data = renderJson (Json.obj ms) := rfl
  rw [hrw]
  cases ms <;> simp [renderJson]

theorem readJsonl_append (l1 l2 : List String) :
    readJsonl (l1 ++ l2) = readJsonl l1 ++ readJsonl l2 := by
  simp [readJsonl, List.filterMap_append]

theorem readJsonl_encodeLine_obj (ms : JsonObj) :
    readJsonl [encodeLine (Json.obj ms)] = [Json.obj ms] := by
  simp only [readJsonl, List.filterMap]
  rw [trimStr_encodeLine_obj]
  simp [encodeLine_obj_ne_empty, parseJsonLine_encodeLine]

theorem entryJson_obj (e : LedgerEntry) : ∃ ms, entryJson e = Json.obj ms := by
  cases e with
  | progress p => exact ⟨_, rfl⟩
  | finding p => exact ⟨_, rfl⟩

theorem foldl_appendEntry (es : List LedgerEntry) : ∀ file : List String,
    es.foldl appendEntry file = file ++ es.map (fun e => encodeLine (entryJson e)) := by
  induction es with
  | nil => intro file; simp
  | cons e tl ih =>
    intro file
    simp [appendEntry, ih (file ++ [encodeLine (entryJson e)])]

theorem readJsonl_entries (es : List LedgerEntry) :
    readJsonl (es.map (fun e => encodeLine (entryJson e))) = es.map entryJson := by
  induction es with
  | nil => rfl
  | cons e tl ih =>
    obtain ⟨ms, hms⟩ := entryJson_obj e
    have h1 : readJsonl [encodeLine (entryJson e)] = [entryJson e] := by
      rw [hms]
      exact readJsonl_encodeLine_obj ms
    have h2 : (e :: tl).map (fun e => encodeLine (entryJson e))
        = [encodeLine (entryJson e)] ++ tl.map (fun e => encodeLine (entryJson e)) := by
      simp
    rw [h2, readJsonl_append, h1, ih]
    simp

/-- Claim C9: appending valid progress or finding entries through the ledger
and reading the per-agent log back yields exactly the structured content of
those entries in order, and a malformed line (blank after trimming, or
rejected by the JSON parser) adjacent to the valid lines is skipped without
corrupting or dropping any valid entry and without failing the read. -/
theorem C9_ledger_round_trip_malformed_skipped
    (es1 es2 : List LedgerEntry) (bad : String)
    (hbad : (trimStr bad).data.isEmpty = true ∨ parseJsonLine (trimStr bad) = none) :
    readJsonl (es2.foldl appendEntry (es1.foldl appendEntry [] ++ [bad]))
      = es1.map entryJson ++ es2.map entryJson := by
  rw [foldl_appendEntry, foldl_appendEntry]
  have hbad2 : readJsonl [bad] = [] := by
    simp only [readJsonl, List.filterMap_cons]
    rcases hbad with hb | hb
    · simp [hb]
    · by_cases he : (trimStr bad).data.isEmpty
      · simp [he]
      · simp [he, hb]
  rw [List.nil_append, List.append_assoc, readJsonl_append, readJsonl_append,
    readJsonl_entries, readJsonl_entries, hbad2]
  simp

/-- Witness for Claim C9: one progress entry whose message contains a quote, a
backslash and a newline, one finding entry with a nested data object, and the
malformed line "not json" between them. -/
theorem C9_ledger_round_trip_malformed_skipped_witness :
    ((trimStr "not json").data.isEmpty = true ∨
      parseJsonLine (trimStr "not json") = none) ∧
    readJsonl (([LedgerEntry.finding
          ⟨"2024-01-02T00:00:00Z", "agent-b", "bug", "high", "boom",
            Json.obj (JsonObj.cons "file" (Json.str "a.ts") JsonObj.nil)⟩].foldl
        appendEntry
        ([LedgerEntry.progress
            ⟨"2024-01-01T00:00:00Z", "agent-a", "working",
              "say \"hi\" \\ and\nmove on", 42⟩].foldl appendEntry []
          ++ ["not json"])))
      = [LedgerEntry.progress
          ⟨"2024-01-01T00:00:00Z", "agent-a", "working",
            "say \"hi\" \\ and\nmove on", 42⟩].map entryJson
        ++ [LedgerEntry.finding
            ⟨"2024-01-02T00:00:00Z", "agent-b", "bug", "high", "boom",
              Json.obj (JsonObj.cons "file" (Json.str "a.ts") JsonObj.nil)⟩].map entryJson :=
  ⟨Or.inr rfl,
    C9_ledger_round_trip_malformed_skipped _ _ "not json" (Or.inr rfl)⟩
